import Mathlib

/-!
Verification development for `midify.py`: a MusixTeX-subset to MIDI converter.
The Python source is shallowly embedded: strings are lists of characters,
Python `int` is `ℤ`, float arithmetic on velocities is exact rational
arithmetic (floors of rationals), fallible operations return `Except String`.
The pseudo-random generator is abstracted as a function `ℕ → ℚ` giving the
successive values of `random.random()`; it is a parameter derived from the
document name, mirroring `random.seed(filename)`.
-/

set_option maxRecDepth 4000

abbrev Chars := List Char

/-- `True` iff the first list begins with the second (substring helper for
Python's `in`, `find` and `replace`). -/
def startsWithChars : Chars → Chars → Bool
  | _, [] => true
  | [], _ :: _ => false
  | a :: as, b :: bs => a = b && startsWithChars as bs

/-- Python's `needle in haystack` on strings. -/
def containsChars (need : Chars) : Chars → Bool
  | [] => need.isEmpty
  | c :: cs => startsWithChars (c :: cs) need || containsChars need cs

/-- Index of the first occurrence of `need` in the haystack, if any. -/
def findSubIdx (need : Chars) : Chars → Option ℕ
  | [] => if need.isEmpty then some 0 else none
  | c :: cs =>
    if startsWithChars (c :: cs) need then some 0
    else (findSubIdx need cs).map (· + 1)

/-- Python's `str.find`: first index or `-1`. -/
def pyFind (hay need : Chars) : ℤ :=
  match findSubIdx need hay with
  | some i => (i : ℤ)
  | none => -1

/-- Python's `str.replace` (all occurrences, scanning left to right).
The recursion is driven by a fuel argument equal to the initial length so
that the definition is structural; each step consumes at least one
character, so the fuel never runs out. -/
def replaceSubGo (need repl : Chars) : ℕ → Chars → Chars
  | 0, s => s
  | _ + 1, [] => []
  | fuel + 1, c :: cs =>
    if startsWithChars (c :: cs) need ∧ need ≠ [] then
      repl ++ replaceSubGo need repl fuel (cs.drop (need.length - 1))
    else c :: replaceSubGo need repl fuel cs

def replaceSub (need repl s : Chars) : Chars :=
  replaceSubGo need repl s.length s

/-- Python's `str.split(sep)` for a one-character separator. -/
def splitOnChar (sep : Char) : Chars → List Chars
  | [] => [[]]
  | c :: cs =>
    let r := splitOnChar sep cs
    if c = sep then [] :: r
    else
      match r with
      | [] => [[c]]
      | t :: ts => (c :: t) :: ts

/-- Python's `str.lower` (ASCII, which is all the source needs). -/
def toLowerL (s : Chars) : Chars := s.map Char.toLower

/-- The regex `^-?\d+$` from `midify.py` (`isNumber`). -/
def isNumber (s : Chars) : Bool :=
  match s with
  | [] => false
  | c :: rest =>
    let ds := if c = '-' then rest else c :: rest
    !ds.isEmpty && ds.all Char.isDigit

def digitsToNat (s : Chars) : ℕ :=
  s.foldl (fun a c => a * 10 + (c.toNat - 48)) 0

/-- Integer value of a string matching `^-?\d+$`. -/
def strToInt (s : Chars) : ℤ :=
  match s with
  | '-' :: rest => -(digitsToNat rest : ℤ)
  | _ => (digitsToNat s : ℤ)

/-- Python's `int(...)` on command arguments: fails on non-numeric input. -/
def pyInt (s : Chars) : Except String ℤ :=
  if isNumber s then Except.ok (strToInt s) else Except.error "ValueError: int"

def lbraceC : Char := Char.ofNat 123
def rbraceC : Char := Char.ofNat 125
def bsC : Char := '\\'

/-- A pitch, wrapping its letter string exactly as the Python `Pitch` class
wraps `value`; equality is by letter identity. -/
structure Pitch where
  value : Chars
deriving DecidableEq

/-- `Pitch.fromNum` from the source: `chr(ord('e')+num)` for `-5 < num < 22`,
`chr(ord('N')+(num+5))` for `num < -4`, otherwise `RuntimeError`.
`ord('e') = 101`, `ord('N') = 78`; a negative code point makes Python's
`chr` itself fail, modelled by the inner error branch. -/
def Pitch.fromNum (num : ℤ) : Except String Pitch :=
  if -5 < num ∧ num < 22 then
    Except.ok ⟨[Char.ofNat (101 + num).toNat]⟩
  else if num < -4 then
    if 78 + (num + 5) < 0 then Except.error "ValueError: chr"
    else Except.ok ⟨[Char.ofNat (78 + (num + 5)).toNat]⟩
  else Except.error "Cannot convert number to pitch"

def Pitch.fromLetter (s : Chars) : Pitch := ⟨s⟩

/-- `auto_pitch` from the source. -/
def auto_pitch (s : Chars) : Except String Pitch :=
  if isNumber s then Pitch.fromNum (strToInt s) else Except.ok (Pitch.fromLetter s)

/-- `SHARPS = [Pitch.fromNum(x) for x in [8, 5, 9, 6, 3, 7, 4]]` (every
offset is in range, so the `toOption` filtering drops nothing). -/
def SHARPS : List Pitch :=
  [(8:ℤ), 5, 9, 6, 3, 7, 4].filterMap (fun n => (Pitch.fromNum n).toOption)

def FLATS : List Pitch :=
  [(4:ℤ), 7, 3, 6, 2, 5, 1].filterMap (fun n => (Pitch.fromNum n).toOption)

/-- The letter-to-MIDI-number table from `Note.toMidiPitch`. -/
def convTable : List (Char × ℤ) :=
  [('A', 21), ('B', 23), ('C', 24), ('D', 26),
   ('E', 28), ('F', 29), ('G', 31), ('H', 33), ('I', 35), ('J', 36), ('K', 38),
   ('L', 40), ('M', 41), ('N', 43), ('a', 45), ('b', 47), ('c', 48), ('d', 50),
   ('e', 52), ('f', 53), ('g', 55), ('h', 57), ('i', 59), ('j', 60), ('k', 62),
   ('l', 64), ('m', 65), ('n', 67), ('o', 69), ('p', 71), ('q', 72), ('r', 74),
   ('s', 76), ('t', 77), ('u', 79), ('v', 81), ('w', 83), ('x', 84), ('y', 86),
   ('z', 88)]

/-- Dictionary lookup `conv[...]`; `none` models the `KeyError` raised on a
value that is not a single known letter. -/
def conv (s : Chars) : Option ℤ :=
  match s with
  | [c] => (convTable.find? (fun p => p.1 = c)).map (·.2)
  | _ => none

/-- A `Note`. The Python constructor receives an `Accidentals` object whose
`sharps`/`flats` are freshly concatenated lists (`global + local`) but whose
`explicitNaturals` field aliases the live local scope's list.  The embedding
therefore snapshots `accSharps`/`accFlats` and keeps `natRef`, an index into
the interpreter's store of per-scope naturals lists, modelling that alias. -/
structure Note where
  pitch : Pitch
  start : ℤ
  duration : ℤ
  accSharps : List Pitch
  accFlats : List Pitch
  natRef : ℕ
  dynamics : ℤ
deriving DecidableEq

/-- The `Note.__init__` clamp: `max(0, min(127, dynamics))`. -/
def mkNote (p : Pitch) (start dur : ℤ) (sharps flats : List Pitch)
    (natRef : ℕ) (dyn : ℤ) : Note :=
  ⟨p, start, dur, sharps, flats, natRef, max 0 (min 127 dyn)⟩

/-- `Note.toMidiPitch`, resolved against a store assigning each scope
generation its (final) naturals list: naturals first, then sharps (+1),
then flats (−1). -/
def Note.toMidiPitch (store : List (List Pitch)) (n : Note) : Except String ℤ :=
  match conv n.pitch.value with
  | none => Except.error "KeyError"
  | some base =>
    if n.pitch ∈ store.getD n.natRef [] then Except.ok base
    else if n.pitch ∈ n.accSharps then Except.ok (base + 1)
    else if n.pitch ∈ n.accFlats then Except.ok (base - 1)
    else Except.ok (base)

/-- The variable-length-quantity loop shared by `startMidiBytes` and
`endMidiBytes`: prepend base-128 digits, continuation bit `0x80` set on each. -/
def vlqAux (v : ℕ) (acc : List ℕ) : List ℕ :=
  if h : v = 0 then acc
  else vlqAux (v / 128) ((v % 128 + 128) :: acc)
termination_by v
decreasing_by exact Nat.div_lt_self (Nat.pos_of_ne_zero h) (by norm_num)

/-- Full VLQ encoding of a non-negative integer as in the source: one plain
byte below 128, otherwise the loop over the 7-bit groups. -/
def vlqEncode (n : ℕ) : List ℕ :=
  if n < 128 then [n] else vlqAux (n / 128) [n % 128]

/-- Standard MIDI VLQ decoding: 7 data bits per byte, big-endian groups. -/
def vlqDecode (bs : List ℕ) : ℕ :=
  bs.foldl (fun a b => a * 128 + b % 128) 0

/-- `Note.endMidiBytes`: VLQ of the duration (`to_bytes` fails on a
negative value). -/
def Note.endMidiBytes (n : Note) : Except String (List ℕ) :=
  if n.duration < 128 then
    if n.duration < 0 then Except.error "OverflowError: to_bytes"
    else Except.ok [n.duration.toNat]
  else Except.ok (vlqAux (n.duration.toNat / 128) [n.duration.toNat % 128])

/-- `Note.startMidiBytes`: delta time relative to the previous note's end
(`bytes([delta])` fails on a negative delta). -/
def Note.startMidiBytes (prev : Option Note) (n : Note) : Except String (List ℕ) :=
  match prev with
  | none => Except.ok [0]
  | some p =>
    let delta := n.start - (p.start + p.duration)
    if delta < 128 then
      if delta < 0 then Except.error "ValueError: bytes"
      else Except.ok [delta.toNat]
    else Except.ok (vlqAux (delta.toNat / 128) [delta.toNat % 128])

/-- `Note.toMidiBytes`: `[delta][0x90][pitch][vel][duration][0x80][pitch][vel]`. -/
def Note.toMidiBytes (store : List (List Pitch)) (prev : Option Note)
    (n : Note) : Except String (List ℕ) :=
  match n.toMidiPitch store with
  | Except.error e => Except.error e
  | Except.ok pitch =>
    if pitch < 0 ∨ 255 < pitch then Except.error "OverflowError: to_bytes"
    else
      match n.startMidiBytes prev with
      | Except.error e => Except.error e
      | Except.ok sb =>
        match n.endMidiBytes with
        | Except.error e => Except.error e
        | Except.ok eb =>
          Except.ok (sb ++ [144, pitch.toNat, n.dynamics.toNat] ++
                     eb ++ [128, pitch.toNat, n.dynamics.toNat])

/-- Python dictionaries `int -> (int | None)` as association lists: the class
attributes `BeamNote.lastTicks` / `BeamNote.nextTicks`.  A stored `None` and
a missing key are both read back as `none` by `.get`, exactly like Python. -/
abbrev BeamDict := List (ℤ × Option ℤ)

def dictGet (d : BeamDict) (k : ℤ) : Option ℤ :=
  match d.find? (fun p => p.1 = k) with
  | some p => p.2
  | none => none

def dictSet (d : BeamDict) (k : ℤ) (v : Option ℤ) : BeamDict :=
  match d with
  | [] => [(k, v)]
  | p :: rest => if p.1 = k then (k, v) :: rest else p :: dictSet rest k v

/-- The `BeamNote` class state: `lastTicks` and `nextTicks`, both initialised
to `{0: 32}` at class creation, i.e. once per process. -/
structure BeamState where
  lastTicks : BeamDict
  nextTicks : BeamDict
deriving DecidableEq

def BeamState.init : BeamState := ⟨[(0, some 32)], [(0, some 32)]⟩

/-- `BeamNote.beamTicks`: one-shot read that returns the current value and
rotates `nextTicks` into `lastTicks` for that beam. -/
def beamTicks (s : BeamState) (beam : ℤ) : Option ℤ × BeamState :=
  (dictGet s.lastTicks beam,
   ⟨dictSet s.lastTicks beam (dictGet s.nextTicks beam), s.nextTicks⟩)

/-- `BeamNote.ticksImmediate`. -/
def ticksImmediate (s : BeamState) (beam t : ℤ) : BeamState :=
  ⟨dictSet s.lastTicks beam (some t), dictSet s.nextTicks beam (some t)⟩

/-- `BeamNote.ticksNext`. -/
def ticksNext (s : BeamState) (beam t : ℤ) : BeamState :=
  ⟨s.lastTicks, dictSet s.nextTicks beam (some t)⟩

/-- `floor(velocity / 1.3)`, computed exactly: `⌊v / (13/10)⌋ = (10*v)/13`
(euclidean division; see `vDecay_floor`). -/
def vDecay (v : ℤ) : ℤ := (10 * v) / 13

/-- `floor(velocity + 0.8*(127 - velocity))`, computed exactly:
`⌊v + (8/10)*(127-v)⌋ = (2*v + 1016)/10` (see `vRecover_floor`). -/
def vRecover (v : ℤ) : ℤ := (2 * v + 1016) / 10

/-- `velocity_step` from the source, with the `random.random()` value `r`
passed explicitly: scale down by 1.3, set `step = (r - 0.5)/2`, then push up
toward 127 when `step > 0` and compute `v - step*v` otherwise. -/
def velocity_step (v : ℤ) (r : ℚ) : ℤ :=
  let v1 := vDecay v
  let step : ℚ := (r - 1/2) / 2
  if step > 0 then ⌊(v1 : ℚ) + step * (127 - (v1 : ℚ))⌋
  else ⌊(v1 : ℚ) - step * (v1 : ℚ)⌋


/-- `parseArgs` from the source: brace-delimited groups (nesting tracked by a
counter) become one argument, any other character outside braces becomes its
own one-character argument. -/
def parseArgsGo : Chars → List Chars → Chars → ℤ → List Chars
  | [], args, _, _ => args
  | c :: cs, args, current, inBraces =>
    if c = lbraceC then parseArgsGo cs args current (inBraces + 1)
    else if c = rbraceC then
      if inBraces - 1 = 0 then parseArgsGo cs (args ++ [current]) [] (inBraces - 1)
      else parseArgsGo cs args current (inBraces - 1)
    else if inBraces > 0 then parseArgsGo cs args (current ++ [c]) inBraces
    else parseArgsGo cs (args ++ [[c]]) current inBraces

def parseArgs (s : Chars) : List Chars := parseArgsGo s [] [] 0

/-- `re.search(r"([a-zA-Z]+)", element)`: the first maximal alphabetic run;
`none` models the `AttributeError` on a letterless element. -/
def firstAlphaRunL (s : Chars) : Option Chars :=
  let t := (s.dropWhile (fun c => !c.isAlpha)).takeWhile Char.isAlpha
  if t.isEmpty then none else some t

/-- Global accidentals derived from the key signature (`explicitNaturals` of
the global scope is never consulted by the merge, so it is omitted). -/
structure GlobalAcc where
  sharps : List Pitch
  flats : List Pitch
deriving DecidableEq

/-- The interpreter's mutable context from `main`'s per-document loop.
`store`/`curGen` model the heap of `explicitNaturals` lists: generation
`curGen` is the list owned by the live `localAccidentals` object, and notes
keep the generation index they were created under (the Python alias).
`rngIdx` counts calls to `random.random()`. -/
structure DocState where
  beams : BeamState
  deltatime : ℤ
  notes : List Note
  localSharps : List Pitch
  localFlats : List Pitch
  store : List (List Pitch)
  curGen : ℕ
  velocity : ℤ
  rngIdx : ℕ
deriving DecidableEq

def initDoc (b : BeamState) : DocState :=
  ⟨b, 0, [], [], [], [[]], 0, 64, 0⟩

/-- `Accidentals.fromGlobalAndLocal` on sharps: fresh concatenation. -/
def mergedSharps (g : GlobalAcc) (s : DocState) : List Pitch :=
  g.sharps ++ s.localSharps

def mergedFlats (g : GlobalAcc) (s : DocState) : List Pitch :=
  g.flats ++ s.localFlats

/-- Group-boundary tokens that also apply the velocity recovery step. -/
def L1 : List Chars :=
  [[], "notes".toList, "notesp".toList, "nnotes".toList, "nnnotes".toList]

/-- Bar-line tokens: reset the local scope only. -/
def L2 : List Chars := ["en".toList, "xbar".toList, "alaligne".toList]

/-- The simple duration command table (the `cl`/`clp`/`ql`/… chain). -/
def simpleDur (cmd : Chars) : Option ℤ :=
  if cmd = "cl".toList ∨ cmd = "cu".toList ∨ cmd = "ca".toList then some 32
  else if cmd = "clp".toList ∨ cmd = "cup".toList ∨ cmd = "cap".toList then some 48
  else if cmd = "ql".toList ∨ cmd = "qu".toList ∨ cmd = "qa".toList then some 64
  else if cmd = "qlp".toList ∨ cmd = "qup".toList ∨ cmd = "qap".toList then some 96
  else if cmd = "hl".toList ∨ cmd = "hu".toList ∨ cmd = "ha".toList then some 128
  else if cmd = "hlp".toList ∨ cmd = "hup".toList ∨ cmd = "hap".toList then some 192
  else if cmd = "wh".toList then some 256
  else none

def dqbFam : List Chars := ["Dqbl".toList, "Dqbu".toList]
def tqbFam : List Chars := ["Tqbl".toList, "Tqbu".toList]
def qqbFam : List Chars := ["Qqbl".toList, "Qqbu".toList]
def dqbbFam : List Chars := ["Dqbbl".toList, "Dqbbu".toList]
def tqbbFam : List Chars := ["Tqbbl".toList, "Tqbbu".toList]
def qqbbFam : List Chars := ["Qqbbl".toList, "Qqbbu".toList]
def ibFam : List Chars := ["ibu".toList, "ibl".toList, "Ibu".toList, "Ibl".toList]
def tbFam : List Chars := ["tbu".toList, "tbl".toList]
def ibbFam : List Chars :=
  ["ibbu".toList, "ibbl".toList, "Ibbu".toList, "Ibbl".toList,
   "nbbu".toList, "nbbl".toList]
def tbbFam : List Chars := ["tbbu".toList, "tbbl".toList]
def slurFam : List Chars :=
  ["slur".toList, "tslur".toList, "isluru".toList, "islurd".toList]
def skFam : List Chars := ["sk".toList, "hsk".toList]

/-- `argsPart[i]`; `none` models the `IndexError`. -/
def argAt (args : List Chars) (i : ℕ) : Except String Chars :=
  match args.get? i with
  | some a => Except.ok a
  | none => Except.error "IndexError"

/-- The chord commands re-parse a single packed argument. -/
def unpackArgs (args : List Chars) : List Chars :=
  if args.length = 1 then parseArgs (args.getD 0 []) else args

/-- One simple duration note: append, advance the cursor, decay velocity. -/
def emitSimple (g : GlobalAcc) (s : DocState) (args : List Chars)
    (dur : ℤ) : Except String DocState :=
  match argAt args 0 with
  | Except.error e => Except.error e
  | Except.ok a0 =>
    match auto_pitch a0 with
    | Except.error e => Except.error e
    | Except.ok p =>
      Except.ok { s with
        notes := s.notes ++
          [mkNote p s.deltatime dur (mergedSharps g s) (mergedFlats g s)
            s.curGen s.velocity],
        deltatime := s.deltatime + dur,
        velocity := vDecay s.velocity }

/-- `Dqbl`/`Dqbu`: two 32-tick notes, decay after each. -/
def emitDqb (g : GlobalAcc) (s : DocState) (args0 : List Chars) :
    Except String DocState :=
  match argAt (unpackArgs args0) 0 with
  | Except.error e => Except.error e
  | Except.ok a0 =>
    match auto_pitch a0 with
    | Except.error e => Except.error e
    | Except.ok p0 =>
      match argAt (unpackArgs args0) 1 with
      | Except.error e => Except.error e
      | Except.ok a1 =>
        match auto_pitch a1 with
        | Except.error e => Except.error e
        | Except.ok p1 =>
          Except.ok { s with
            notes := s.notes ++
              [mkNote p0 (s.deltatime + 0 * 32) 32 (mergedSharps g s)
                (mergedFlats g s) s.curGen s.velocity,
               mkNote p1 (s.deltatime + 1 * 32) 32 (mergedSharps g s)
                (mergedFlats g s) s.curGen (vDecay s.velocity)],
            deltatime := s.deltatime + 2 * 32,
            velocity := vDecay (vDecay s.velocity) }

/-- `Tqbl`/`Tqbu`: three 32-tick notes, decay after each. -/
def emitTqb (g : GlobalAcc) (s : DocState) (args0 : List Chars) :
    Except String DocState :=
  match argAt (unpackArgs args0) 0 with
  | Except.error e => Except.error e
  | Except.ok a0 =>
    match auto_pitch a0 with
    | Except.error e => Except.error e
    | Except.ok p0 =>
      match argAt (unpackArgs args0) 1 with
      | Except.error e => Except.error e
      | Except.ok a1 =>
        match auto_pitch a1 with
        | Except.error e => Except.error e
        | Except.ok p1 =>
          match argAt (unpackArgs args0) 2 with
          | Except.error e => Except.error e
          | Except.ok a2 =>
            match auto_pitch a2 with
            | Except.error e => Except.error e
            | Except.ok p2 =>
              Except.ok { s with
                notes := s.notes ++
                  [mkNote p0 (s.deltatime + 0 * 32) 32 (mergedSharps g s)
                    (mergedFlats g s) s.curGen s.velocity,
                   mkNote p1 (s.deltatime + 1 * 32) 32 (mergedSharps g s)
                    (mergedFlats g s) s.curGen (vDecay s.velocity),
                   mkNote p2 (s.deltatime + 2 * 32) 32 (mergedSharps g s)
                    (mergedFlats g s) s.curGen (vDecay (vDecay s.velocity))],
                deltatime := s.deltatime + 3 * 32,
                velocity := vDecay (vDecay (vDecay s.velocity)) }

/-- `Qqbl`/`Qqbu`: four 32-tick notes with the fixed velocity ladder
127, 96, 76, 64; no decay afterwards. -/
def emitQqb (g : GlobalAcc) (s : DocState) (args0 : List Chars) :
    Except String DocState :=
  match argAt (unpackArgs args0) 0 with
  | Except.error e => Except.error e
  | Except.ok a0 =>
    match auto_pitch a0 with
    | Except.error e => Except.error e
    | Except.ok p0 =>
      match argAt (unpackArgs args0) 1 with
      | Except.error e => Except.error e
      | Except.ok a1 =>
        match auto_pitch a1 with
        | Except.error e => Except.error e
        | Except.ok p1 =>
          match argAt (unpackArgs args0) 2 with
          | Except.error e => Except.error e
          | Except.ok a2 =>
            match auto_pitch a2 with
            | Except.error e => Except.error e
            | Except.ok p2 =>
              match argAt (unpackArgs args0) 3 with
              | Except.error e => Except.error e
              | Except.ok a3 =>
                match auto_pitch a3 with
                | Except.error e => Except.error e
                | Except.ok p3 =>
                  Except.ok { s with
                    notes := s.notes ++
                      [mkNote p0 (s.deltatime + 0 * 32) 32 (mergedSharps g s)
                        (mergedFlats g s) s.curGen 127,
                       mkNote p1 (s.deltatime + 1 * 32) 32 (mergedSharps g s)
                        (mergedFlats g s) s.curGen 96,
                       mkNote p2 (s.deltatime + 2 * 32) 32 (mergedSharps g s)
                        (mergedFlats g s) s.curGen 76,
                       mkNote p3 (s.deltatime + 3 * 32) 32 (mergedSharps g s)
                        (mergedFlats g s) s.curGen 64],
                    deltatime := s.deltatime + 4 * 32 }

/-- `Dqbbl`/`Dqbbu`: two 16-tick notes, default velocity 64, no decay. -/
def emitDqbb (g : GlobalAcc) (s : DocState) (args0 : List Chars) :
    Except String DocState :=
  match argAt (unpackArgs args0) 0 with
  | Except.error e => Except.error e
  | Except.ok a0 =>
    match auto_pitch a0 with
    | Except.error e => Except.error e
    | Except.ok p0 =>
      match argAt (unpackArgs args0) 1 with
      | Except.error e => Except.error e
      | Except.ok a1 =>
        match auto_pitch a1 with
        | Except.error e => Except.error e
        | Except.ok p1 =>
          Except.ok { s with
            notes := s.notes ++
              [mkNote p0 (s.deltatime + 0 * 16) 16 (mergedSharps g s)
                (mergedFlats g s) s.curGen 64,
               mkNote p1 (s.deltatime + 1 * 16) 16 (mergedSharps g s)
                (mergedFlats g s) s.curGen 64],
            deltatime := s.deltatime + 2 * 16 }

/-- `Tqbbl`/`Tqbbu`: three 16-tick notes, default velocity 64, no decay. -/
def emitTqbb (g : GlobalAcc) (s : DocState) (args0 : List Chars) :
    Except String DocState :=
  match argAt (unpackArgs args0) 0 with
  | Except.error e => Except.error e
  | Except.ok a0 =>
    match auto_pitch a0 with
    | Except.error e => Except.error e
    | Except.ok p0 =>
      match argAt (unpackArgs args0) 1 with
      | Except.error e => Except.error e
      | Except.ok a1 =>
        match auto_pitch a1 with
        | Except.error e => Except.error e
        | Except.ok p1 =>
          match argAt (unpackArgs args0) 2 with
          | Except.error e => Except.error e
          | Except.ok a2 =>
            match auto_pitch a2 with
            | Except.error e => Except.error e
            | Except.ok p2 =>
              Except.ok { s with
                notes := s.notes ++
                  [mkNote p0 (s.deltatime + 0 * 16) 16 (mergedSharps g s)
                    (mergedFlats g s) s.curGen 64,
                   mkNote p1 (s.deltatime + 1 * 16) 16 (mergedSharps g s)
                    (mergedFlats g s) s.curGen 64,
                   mkNote p2 (s.deltatime + 2 * 16) 16 (mergedSharps g s)
                    (mergedFlats g s) s.curGen 64],
                deltatime := s.deltatime + 3 * 16 }

/-- `Qqbbl`/`Qqbbu`: four 16-tick notes, default velocity 64, no decay. -/
def emitQqbb (g : GlobalAcc) (s : DocState) (args0 : List Chars) :
    Except String DocState :=
  match argAt (unpackArgs args0) 0 with
  | Except.error e => Except.error e
  | Except.ok a0 =>
    match auto_pitch a0 with
    | Except.error e => Except.error e
    | Except.ok p0 =>
      match argAt (unpackArgs args0) 1 with
      | Except.error e => Except.error e
      | Except.ok a1 =>
        match auto_pitch a1 with
        | Except.error e => Except.error e
        | Except.ok p1 =>
          match argAt (unpackArgs args0) 2 with
          | Except.error e => Except.error e
          | Except.ok a2 =>
            match auto_pitch a2 with
            | Except.error e => Except.error e
            | Except.ok p2 =>
              match argAt (unpackArgs args0) 3 with
              | Except.error e => Except.error e
              | Except.ok a3 =>
                match auto_pitch a3 with
                | Except.error e => Except.error e
                | Except.ok p3 =>
                  Except.ok { s with
                    notes := s.notes ++
                      [mkNote p0 (s.deltatime + 0 * 16) 16 (mergedSharps g s)
                        (mergedFlats g s) s.curGen 64,
                       mkNote p1 (s.deltatime + 1 * 16) 16 (mergedSharps g s)
                        (mergedFlats g s) s.curGen 64,
                       mkNote p2 (s.deltatime + 2 * 16) 16 (mergedSharps g s)
                        (mergedFlats g s) s.curGen 64,
                       mkNote p3 (s.deltatime + 3 * 16) 16 (mergedSharps g s)
                        (mergedFlats g s) s.curGen 64],
                    deltatime := s.deltatime + 4 * 16 }

/-- `qb`: beam note; the one-shot beam read, one note, cursor advance,
velocity jitter consuming one `random.random()` value. -/
def emitQb (rng : ℕ → ℚ) (g : GlobalAcc) (s : DocState) (args : List Chars) :
    Except String DocState :=
  match argAt args 0 with
  | Except.error e => Except.error e
  | Except.ok a0 =>
    match pyInt a0 with
    | Except.error e => Except.error e
    | Except.ok b =>
      match argAt args 1 with
      | Except.error e => Except.error e
      | Except.ok a1 =>
        match auto_pitch a1 with
        | Except.error e => Except.error e
        | Except.ok p =>
          match beamTicks s.beams b with
          | (none, _) => Except.error "TypeError: None"
          | (some t, beams') =>
            Except.ok { s with
              beams := beams',
              notes := s.notes ++
                [mkNote p s.deltatime t (mergedSharps g s)
                  (mergedFlats g s) s.curGen s.velocity],
              deltatime := s.deltatime + t,
              velocity := velocity_step s.velocity (rng s.rngIdx),
              rngIdx := s.rngIdx + 1 }

/-- `qbp`: dotted beam note (`ticks + ticks//2`). -/
def emitQbp (rng : ℕ → ℚ) (g : GlobalAcc) (s : DocState) (args : List Chars) :
    Except String DocState :=
  match argAt args 0 with
  | Except.error e => Except.error e
  | Except.ok a0 =>
    match pyInt a0 with
    | Except.error e => Except.error e
    | Except.ok b =>
      match argAt args 1 with
      | Except.error e => Except.error e
      | Except.ok a1 =>
        match auto_pitch a1 with
        | Except.error e => Except.error e
        | Except.ok p =>
          match beamTicks s.beams b with
          | (none, _) => Except.error "TypeError: None"
          | (some t, beams') =>
            Except.ok { s with
              beams := beams',
              notes := s.notes ++
                [mkNote p s.deltatime (t + Int.fdiv t 2)
                  (mergedSharps g s) (mergedFlats g s) s.curGen
                  s.velocity],
              deltatime := s.deltatime + (t + Int.fdiv t 2),
              velocity := velocity_step s.velocity (rng s.rngIdx),
              rngIdx := s.rngIdx + 1 }

/-- Tail of the dispatch chain: beam notes (`qb`, `qbp`), repeat markers,
slurs and skips, and the unknown-command fallthrough (logged and skipped). -/
def stepCmdRest (rng : ℕ → ℚ) (g : GlobalAcc) (s : DocState) (cmd : Chars)
    (args : List Chars) : Except String DocState :=
  if cmd = "qb".toList then emitQb rng g s args
  else if cmd = "qbp".toList then emitQbp rng g s args
  else if containsChars "repeat".toList cmd then
    Except.ok { s with
      deltatime := s.deltatime + (if s.deltatime > 0 then 1024 else 0) }
  else if cmd ∈ slurFam then Except.ok s
  else if cmd ∈ skFam then Except.ok s
  else Except.ok s

/-- Beam-declaration section of the dispatch chain (`ibu`…, `tbu`…,
`ibbu`…/`nbbu`…, `tbbu`…). -/
def stepCmdBeam (rng : ℕ → ℚ) (g : GlobalAcc) (s : DocState) (cmd : Chars)
    (args : List Chars) : Except String DocState :=
  if cmd ∈ ibFam then
    match argAt args 0 with
    | Except.error e => Except.error e
    | Except.ok a0 =>
      match pyInt a0 with
      | Except.error e => Except.error e
      | Except.ok b =>
        Except.ok { s with beams := ticksImmediate s.beams b 32 }
  else if cmd ∈ tbFam then
    match argAt args 0 with
    | Except.error e => Except.error e
    | Except.ok a0 =>
      match pyInt a0 with
      | Except.error e => Except.error e
      | Except.ok b =>
        Except.ok { s with beams := ticksNext s.beams b 32 }
  else if cmd ∈ ibbFam then
    match argAt args 0 with
    | Except.error e => Except.error e
    | Except.ok a0 =>
      match pyInt a0 with
      | Except.error e => Except.error e
      | Except.ok b =>
        Except.ok { s with beams := ticksImmediate s.beams b 16,
                           velocity := vRecover s.velocity }
  else if cmd ∈ tbbFam then
    match argAt args 0 with
    | Except.error e => Except.error e
    | Except.ok a0 =>
      match pyInt a0 with
      | Except.error e => Except.error e
      | Except.ok b =>
        Except.ok { s with beams := ticksNext s.beams b 16 }
  else stepCmdRest rng g s cmd args

/-- Chord/tuplet section of the dispatch chain (`Dqb`…`Qqbb`). -/
def stepCmdChord (rng : ℕ → ℚ) (g : GlobalAcc) (s : DocState) (cmd : Chars)
    (args : List Chars) : Except String DocState :=
  if cmd ∈ dqbFam then emitDqb g s args
  else if cmd ∈ tqbFam then emitTqb g s args
  else if cmd ∈ qqbFam then emitQqb g s args
  else if cmd ∈ dqbbFam then emitDqbb g s args
  else if cmd ∈ tqbbFam then emitTqbb g s args
  else if cmd ∈ qqbbFam then emitQqbb g s args
  else stepCmdBeam rng g s cmd args

/-- Accidental section of the dispatch chain (`sh`, `fl`, `na`). -/
def stepCmdAcc (rng : ℕ → ℚ) (g : GlobalAcc) (s : DocState) (cmd : Chars)
    (args : List Chars) : Except String DocState :=
  if cmd = "sh".toList then
    match argAt args 0 with
    | Except.error e => Except.error e
    | Except.ok a0 =>
      match auto_pitch a0 with
      | Except.error e => Except.error e
      | Except.ok p =>
        Except.ok { s with localSharps := s.localSharps ++ [p] }
  else if cmd = "fl".toList then
    match argAt args 0 with
    | Except.error e => Except.error e
    | Except.ok a0 =>
      match auto_pitch a0 with
      | Except.error e => Except.error e
      | Except.ok p =>
        Except.ok { s with localFlats := s.localFlats ++ [p] }
  else if cmd = "na".toList then
    match argAt args 0 with
    | Except.error e => Except.error e
    | Except.ok a0 =>
      match auto_pitch a0 with
      | Except.error e => Except.error e
      | Except.ok p =>
        Except.ok { s with
          store := s.store.set s.curGen (s.store.getD s.curGen [] ++ [p]) }
  else stepCmdChord rng g s cmd args

/-- The command dispatch of `main`'s loop (`midify.py` lines 240–366): the
`if`/`elif` chain over the extracted command name and parsed arguments, in
source order, cut into the sections above. -/
def stepCmd (rng : ℕ → ℚ) (g : GlobalAcc) (s : DocState) (cmd : Chars)
    (args : List Chars) : Except String DocState :=
  match simpleDur cmd with
  | some d => emitSimple g s args d
  | none => stepCmdAcc rng g s cmd args

/-- One iteration of `main`'s `for element in content` loop (`midify.py`
lines 232–366): group-boundary and bar-line tokens first, then command-name
extraction and dispatch. -/
def step (rng : ℕ → ℚ) (g : GlobalAcc) (s : DocState) (element : Chars) :
    Except String DocState :=
  if toLowerL element ∈ L1 then
    Except.ok { s with localSharps := [], localFlats := [],
                       store := s.store ++ [[]], curGen := s.store.length,
                       velocity := vRecover s.velocity }
  else if toLowerL element ∈ L2 then
    Except.ok { s with localSharps := [], localFlats := [],
                       store := s.store ++ [[]], curGen := s.store.length }
  else
    match firstAlphaRunL element with
    | none => Except.error "AttributeError: NoneType"
    | some cmd => stepCmd rng g s cmd (parseArgs (element.drop cmd.length))

/-- The interpreter loop over the token list; an exception aborts the
document (there is no handler in the source). -/
def interpret (rng : ℕ → ℚ) (g : GlobalAcc) (tokens : List Chars)
    (s : DocState) : Except String DocState :=
  match tokens with
  | [] => Except.ok s
  | t :: ts =>
    match step rng g s t with
    | Except.ok s' => interpret rng g ts s'
    | Except.error e => Except.error e

def midifyableLit : Chars := "\\midifyable".toList
def beginMusicLit : Chars := "\\begin\x7bmusic\x7d".toList
def endpieceLit : Chars := "\\endpiece".toList
def allabreveLit : Chars := "\\generalmeter\x7b\\allabreve\x7d".toList
def meterfrac44Lit : Chars := "\\generalmeter\x7b\\meterfrac44\x7d".toList
def meterLit : Chars := "\\generalmeter\x7b\\meterfrac".toList
def sigLit : Chars := "\\generalsignature".toList
def startpieceLit : Chars := "\\startpiece".toList

def dropSpacesL (s : Chars) : Chars := s.dropWhile (fun c => c = ' ')
def stripCommentL (s : Chars) : Chars := s.takeWhile (fun c => c ≠ '%')

/-- Comment stripping from every line that is followed by a newline. -/
def stripCommentsGo : List Chars → List Chars
  | [] => []
  | [l] => [l]
  | l :: ls => stripCommentL l :: stripCommentsGo ls

/-- `re.sub("(%.*)?\n *", "", content)`: remove each comment-to-end-of-line
(when a newline follows), the newline itself, and the following line's
leading spaces. -/
def stripComments (content : Chars) : Chars :=
  match stripCommentsGo (splitOnChar '\n' content) with
  | [] => []
  | l :: ls => l ++ (ls.map dropSpacesL).flatten

def digitVal (c : Char) : ℕ := c.toNat - 48

/-- Match of `\\generalmeter\{\\meterfrac(\d)(\d)}` at the head. -/
def meterAt (cs : Chars) : Option (ℕ × ℕ) :=
  if startsWithChars cs meterLit then
    match cs.drop meterLit.length with
    | d1 :: d2 :: r :: _ =>
      if d1.isDigit && d2.isDigit && r = rbraceC then
        some (digitVal d1, digitVal d2)
      else none
    | _ => none
  else none

/-- `re.search` for the meter directive. -/
def meterSearch : Chars → Option (ℕ × ℕ)
  | [] => none
  | c :: cs =>
    match meterAt (c :: cs) with
    | some m => some m
    | none => meterSearch cs

/-- Match of `\\generalsignature\{?(-?\d)` at the head. -/
def sigAt (cs : Chars) : Option ℤ :=
  if startsWithChars cs sigLit then
    let rest := cs.drop sigLit.length
    let rest2 := match rest with
      | c :: t => if c = lbraceC then t else c :: t
      | [] => []
    match rest2 with
    | '-' :: d :: _ => if d.isDigit then some (-(digitVal d : ℤ)) else none
    | d :: _ => if d.isDigit then some ((digitVal d : ℤ)) else none
    | [] => none
  else none

/-- `re.search` for the key signature directive. -/
def sigSearch : Chars → Option ℤ
  | [] => none
  | c :: cs =>
    match sigAt (c :: cs) with
    | some m => some m
    | none => sigSearch cs

/-- `midify.py` lines 207–212: comment/newline stripping, cut at
`\begin{music}` (Python's `find` returns `-1` when absent, so 12 characters
are dropped then), cut before `\endpiece` (absent: all but the last
character survive), space removal, `\allabreve` alias replacement. -/
def preprocess (content : Chars) : Chars :=
  let c1 := stripComments content
  let c2 := c1.drop (pyFind c1 beginMusicLit + 13).toNat
  let c3 := match findSubIdx endpieceLit c2 with
    | some i => c2.take i
    | none => c2.take (c2.length - 1)
  let c4 := c3.filter (fun c => c ≠ ' ')
  replaceSub allabreveLit meterfrac44Lit c4

/-- Result of one successfully converted document: the note list, the final
naturals store (needed to resolve pitches) and the written file's bytes. -/
structure DocResult where
  notes : List Note
  store : List (List Pitch)
  bytes : List ℕ
deriving DecidableEq

/-- The `for n in notes` encoding loop of `main`. -/
def encodeNotesGo (store : List (List Pitch)) (prev : Option Note) :
    List Note → Except String (List ℕ)
  | [] => Except.ok []
  | n :: ns =>
    match n.toMidiBytes store prev with
    | Except.error e => Except.error e
    | Except.ok bs =>
      match encodeNotesGo store (some n) ns with
      | Except.error e => Except.error e
      | Except.ok rest => Except.ok (bs ++ rest)

def encodeNotes (store : List (List Pitch)) (notes : List Note) :
    Except String (List ℕ) :=
  encodeNotesGo store none notes

/-- `MThd` + length 6 + format 1 + 1 track + division 0x40 + `MTrk`. -/
def midiHeader : List ℕ :=
  [77, 84, 104, 100, 0, 0, 0, 6, 0, 1, 0, 1, 0, 64, 77, 84, 114, 107]

/-- 4-byte big-endian track length. -/
def len4 (n : ℕ) : List ℕ :=
  [n / 16777216 % 256, n / 65536 % 256, n / 256 % 256, n % 256]

/-- `noMeterErr` is the `AttributeError` raised on `re.search(...).group`
when the meter directive is missing. -/
def noMeterErr : String := "AttributeError: NoneType"

/-- Processing of one document (`main` lines 199–381): skip without the
`\midifyable` marker; otherwise preprocess, extract signature, interpret
from `\startpiece`, encode.  The beam state is the process-wide `BeamNote`
class state: it is threaded in and out rather than reset per document. -/
def processDocument (rng : ℕ → ℚ) (b : BeamState) (content : Chars) :
    BeamState × Option (Except String DocResult) :=
  if containsChars midifyableLit content then
    let c5 := preprocess content
    match meterSearch c5 with
    | none => (b, some (Except.error noMeterErr))
    | some _ =>
      let signature : ℤ := (sigSearch c5).getD 0
      let g : GlobalAcc :=
        if signature > 0 then ⟨SHARPS.take signature.toNat, []⟩
        else if signature < 0 then ⟨[], FLATS.take signature.natAbs⟩
        else ⟨[], []⟩
      let c6 := c5.drop (pyFind c5 startpieceLit + 11).toNat
      let tokens := splitOnChar bsC c6
      match interpret rng g tokens (initDoc b) with
      | Except.error e => (b, some (Except.error e))
      | Except.ok s =>
        match encodeNotes s.store s.notes with
        | Except.error e => (b, some (Except.error e))
        | Except.ok body =>
          (s.beams, some (Except.ok ⟨s.notes, s.store,
            midiHeader ++ len4 body.length ++ body⟩))
  else (b, none)

/-- The whole batch (`main`'s outer loop): `rngOf` gives the random stream
seeded by each file name; outputs accumulate until the first uncaught
exception, which aborts the run.  Returns the written `(name + ".mid",
bytes)` pairs, the aborting error if any, and the final beam state. -/
def runBatch (rngOf : Chars → ℕ → ℚ) :
    List (Chars × Chars) → BeamState →
    List (Chars × List ℕ) × Option String × BeamState
  | [], b => ([], none, b)
  | (name, content) :: rest, b =>
    match processDocument (rngOf name) b content with
    | (b', none) => runBatch rngOf rest b'
    | (b', some (Except.ok res)) =>
      ((name ++ ".mid".toList, res.bytes) :: (runBatch rngOf rest b').1,
       (runBatch rngOf rest b').2.1, (runBatch rngOf rest b').2.2)
    | (_, some (Except.error e)) => ([], some e, b)

deriving instance DecidableEq for Except

/-- Velocity within the MIDI range. -/
def velOK (s : DocState) : Prop := 0 ≤ s.velocity ∧ s.velocity ≤ 127

/-- A note's velocity within the MIDI range. -/
def dynBounds (n : Note) : Prop := 0 ≤ n.dynamics ∧ n.dynamics ≤ 127

/-- A degenerate random stream (any concrete stream works for documents
without beam notes, and for beam notes only the post-note velocity uses it). -/
def rngZero : ℕ → ℚ := fun _ => 0

def rngOfZero : Chars → ℕ → ℚ := fun _ _ => 0

/-- The end-to-end scenario input of the spec, with the feature marker and
the music-region delimiters present. -/
def c1content : Chars :=
  "\\midifyable\\begin\x7bmusic\x7d\\generalmeter\x7b\\meterfrac44\x7d\\generalsignature\x7b1\x7d\\startpiece\\cl\x7b0\x7d\\cl\x7b2\x7d\\endpiece".toList

/-- A document that only declares a 16-tick beam duration for beam 0. -/
def docA : Chars :=
  "\\midifyable\\begin\x7bmusic\x7d\\generalmeter\x7b\\meterfrac44\x7d\\startpiece\\ibbu0\\endpiece".toList

/-- A document with a single beam note on beam 0, never declaring a beam
duration itself. -/
def docB : Chars :=
  "\\midifyable\\begin\x7bmusic\x7d\\generalmeter\x7b\\meterfrac44\x7d\\startpiece\\qb0e\\endpiece".toList

/-- A midifyable document with no `\generalmeter` directive. -/
def docNoMeter : Chars :=
  "\\midifyable\\begin\x7bmusic\x7d\\startpiece\\cl\x7b0\x7d\\endpiece".toList

/-- A document whose music body starts with a `\notes` group marker before
the first note command. -/
def docNotesFirst : Chars :=
  "\\midifyable\\begin\x7bmusic\x7d\\generalmeter\x7b\\meterfrac44\x7d\\startpiece\\notes\\cl\x7b0\x7d\\endpiece".toList

/-- A document without the `\midifyable` feature marker (skipped). -/
def docPlain : Chars := "hello".toList

/-- Resolved MIDI pitch of the first note after interpreting `tokens` from
the initial state, against the final naturals store (observation helper). -/
def firstPitchResolved (g : GlobalAcc) (tokens : List Chars) :
    Option (Except String ℤ) :=
  match interpret rngZero g tokens (initDoc BeamState.init) with
  | Except.ok s => s.notes.head?.map (fun n => n.toMidiPitch s.store)
  | Except.error _ => none

/-- The first note itself after interpreting `tokens` (observation helper). -/
def firstNoteOf (g : GlobalAcc) (tokens : List Chars) : Option Note :=
  match interpret rngZero g tokens (initDoc BeamState.init) with
  | Except.ok s => s.notes.head?
  | Except.error _ => none

theorem vDecay_floor (v : ℤ) : vDecay v = ⌊(v : ℚ) / (13/10)⌋ := by
  have h : (v : ℚ) / (13/10) = ((10 * v : ℤ) : ℚ) / ((13 : ℕ) : ℚ) := by
    push_cast; ring
  rw [vDecay, h, Rat.floor_intCast_div_natCast]
  norm_num

theorem vRecover_floor (v : ℤ) :
    vRecover v = ⌊(v : ℚ) + (8/10) * (127 - (v : ℚ))⌋ := by
  have h : (v : ℚ) + (8/10) * (127 - (v : ℚ)) =
      ((2 * v + 1016 : ℤ) : ℚ) / ((10 : ℕ) : ℚ) := by push_cast; ring
  rw [vRecover, h, Rat.floor_intCast_div_natCast]
  norm_num

theorem dictGet_dictSet (d : BeamDict) (k : ℤ) (v : Option ℤ) :
    dictGet (dictSet d k v) k = v := by
  induction d with
  | nil => simp [dictSet, dictGet, List.find?]
  | cons p rest ih =>
    by_cases h : p.1 = k
    · simp [dictSet, h, dictGet, List.find?]
    · simp only [dictSet, if_neg h]
      simpa [dictGet, List.find?, h] using ih

/-- C9: after `ticksNext(beamId, X)`, the next `beamTicks(beamId)` read
returns the previously current value of that beam, and the read after that
returns `X`. -/
theorem C9_beam_oneshot (bs : BeamState) (beam X : ℤ) :
    (beamTicks (ticksNext bs beam X) beam).1 = dictGet bs.lastTicks beam ∧
    (beamTicks ((beamTicks (ticksNext bs beam X) beam).2) beam).1 = some X := by
  constructor
  · rfl
  · show dictGet (dictSet bs.lastTicks beam
      (dictGet (dictSet bs.nextTicks beam (some X)) beam)) beam = some X
    rw [dictGet_dictSet, dictGet_dictSet]

theorem vlqAux_eq (v : ℕ) (acc : List ℕ) :
    vlqAux v acc =
      if v = 0 then acc else vlqAux (v / 128) ((v % 128 + 128) :: acc) := by
  rw [vlqAux, dite_eq_ite]

/-- C8: encoding any integer in the 3-byte VLQ range `[0, 2097151]` as a
MIDI variable-length quantity and decoding it recovers the integer
(boundary values 0, 127, 128, 16383, 16384 included). -/
theorem C8_vlq_roundtrip (n : ℕ) (hn : n ≤ 2097151) :
    vlqDecode (vlqEncode n) = n := by
  unfold vlqEncode
  by_cases h1 : n < 128
  · rw [if_pos h1]
    simp [vlqDecode, List.foldl]
    omega
  · rw [if_neg h1]
    rw [vlqAux_eq, if_neg (by omega : ¬ n / 128 = 0)]
    by_cases h2 : n < 16384
    · rw [vlqAux_eq, Nat.div_div_eq_div_mul,
        if_pos (by rw [show (128 * 128 : ℕ) = 16384 from rfl]; omega :
          n / (128 * 128) = 0)]
      simp [vlqDecode, List.foldl]
      omega
    · rw [vlqAux_eq, Nat.div_div_eq_div_mul,
        if_neg (by rw [show (128 * 128 : ℕ) = 16384 from rfl]; omega :
          ¬ n / (128 * 128) = 0)]
      rw [vlqAux_eq, Nat.div_div_eq_div_mul,
        if_pos (by rw [show (128 * 128 * 128 : ℕ) = 2097152 from rfl]; omega :
          n / (128 * 128 * 128) = 0)]
      simp only [vlqDecode, List.foldl]
      rw [show (128 * 128 : ℕ) = 16384 from rfl]
      omega

/-- Witness for C8 at the boundary value 16384. -/
theorem C8_witness : vlqDecode (vlqEncode 16384) = 16384 :=
  C8_vlq_roundtrip 16384 (by norm_num)

/-- C6 counterexample: `Pitch.fromNum (-19)` is below both alphabetic
ranges, yet the source returns `Pitch('@')` instead of raising: the second
branch has no lower bound. -/
theorem C6_counterexample :
    Pitch.fromNum (-19) = Except.ok (Pitch.fromLetter ['@']) ∧
    ('@'.isAlpha) = false := by
  constructor <;> decide

/-- C6 (amended): `fromNum` maps `[-18, 21]` into the two alphabetic ranges
and errors for `num ≥ 22`, but for `num ∈ [-83, -19]` it returns a pitch
whose letter lies below `'A'` (outside both alphabetic ranges) without an
error; only below `-83` does the character conversion itself fail. -/
theorem C6_amended_fromNum_ranges :
    (∀ k : Fin 40, ((Pitch.fromNum (-18 + (k : ℤ))).toOption.map
        (fun p => p.value.all Char.isAlpha)) = some true) ∧
    (∀ n : ℤ, 22 ≤ n →
      Pitch.fromNum n = Except.error "Cannot convert number to pitch") ∧
    (∀ k : Fin 65, ((Pitch.fromNum (-83 + (k : ℤ))).toOption.map
        (fun p => p.value.all Char.isAlpha)) = some false) ∧
    (∀ n : ℤ, n ≤ -84 → Pitch.fromNum n = Except.error "ValueError: chr") := by
  refine ⟨by decide, ?_, by decide, ?_⟩
  · intro n hn
    unfold Pitch.fromNum
    rw [if_neg (by omega), if_neg (by omega)]
  · intro n hn
    unfold Pitch.fromNum
    rw [if_neg (by omega), if_pos (by omega), if_pos (by omega)]

/-- Witness for C6: the upper out-of-range side does raise. -/
theorem C6_witness :
    Pitch.fromNum 30 = Except.error "Cannot convert number to pitch" :=
  C6_amended_fromNum_ranges.2.1 30 (by norm_num)

/-- C5 counterexample: with starting velocity 64 and drawn value
`random.random() = 1/4` the offset is `-1/8 ≤ 0`, yet the result 55 is
strictly above the scaled-down value `floor(64/1.3) = 49`: the non-positive
branch computes `v - step*v = v*(1 - step) ≥ v`, pushing the velocity up,
not down. -/
theorem C5_counterexample :
    velocity_step 64 (1/4) = 55 ∧ ¬ velocity_step 64 (1/4) ≤ vDecay 64 := by
  have hd : vDecay 64 = 49 := by decide
  have h : velocity_step 64 (1/4) = 55 := by
    simp only [velocity_step, hd]
    rw [if_neg (by norm_num)]
    rw [show ((49:ℤ) : ℚ) - ((1:ℚ)/4 - 1/2) / 2 * ((49:ℤ) : ℚ) = 441/8 by
      push_cast; ring]
    rw [Int.floor_eq_iff]
    norm_num
  refine ⟨h, ?_⟩
  rw [h, hd]
  norm_num

theorem vDecay_mem {v : ℤ} (h0 : 0 ≤ v) (h1 : v ≤ 127) :
    0 ≤ vDecay v ∧ vDecay v ≤ 127 := by
  unfold vDecay; omega

theorem vDecay_le97 {v : ℤ} (h1 : v ≤ 127) : vDecay v ≤ 97 := by
  unfold vDecay; omega

theorem vDecay_nonneg {v : ℤ} (h0 : 0 ≤ v) : 0 ≤ vDecay v := by
  unfold vDecay; omega

theorem vRecover_mem {v : ℤ} (h0 : 0 ≤ v) (h1 : v ≤ 127) :
    0 ≤ vRecover v ∧ vRecover v ≤ 127 := by
  unfold vRecover; omega

theorem velocity_step_mem {v : ℤ} {r : ℚ} (h0 : 0 ≤ v) (h1 : v ≤ 127)
    (hr0 : 0 ≤ r) (hr1 : r < 1) :
    0 ≤ velocity_step v r ∧ velocity_step v r ≤ 127 := by
  have hq0 : (0:ℤ) ≤ vDecay v := vDecay_nonneg h0
  have hq97 : vDecay v ≤ 97 := vDecay_le97 h1
  simp only [velocity_step]
  have hq0' : (0:ℚ) ≤ ((vDecay v : ℤ) : ℚ) := by exact_mod_cast hq0
  have hq97' : ((vDecay v : ℤ) : ℚ) ≤ 97 := by exact_mod_cast hq97
  have hst1 : (r - 1/2)/2 < 1/4 := by linarith
  have hst2 : -(1/4 : ℚ) ≤ (r - 1/2)/2 := by linarith
  split
  · constructor
    · apply Int.le_floor.mpr
      push_cast
      nlinarith
    · have hlt : ((vDecay v : ℤ) : ℚ) + (r - 1/2)/2 * (127 - ((vDecay v : ℤ) : ℚ)) <
          ((128 : ℤ) : ℚ) := by push_cast; nlinarith
      have := Int.floor_lt.mpr hlt
      omega
  · constructor
    · apply Int.le_floor.mpr
      push_cast
      nlinarith
    · have hlt : ((vDecay v : ℤ) : ℚ) - (r - 1/2)/2 * ((vDecay v : ℤ) : ℚ) <
          ((128 : ℤ) : ℚ) := by push_cast; nlinarith
      have := Int.floor_lt.mpr hlt
      omega

/-- C5 (amended): after the scale-down `v1 = floor(v/1.3)`, a positive
offset pushes the velocity up toward 127, but a non-positive offset also
pushes it up: the code computes `v1 - step*v1 = v1*(1 - step) ≥ v1`, so the
result is always at least the scaled-down value (never at most it). -/
theorem C5_amended_jitter_up (v : ℤ) (r : ℚ) (h0 : 0 ≤ v) (h1 : v ≤ 127)
    (hr0 : 0 ≤ r) (hr1 : r < 1) :
    vDecay v ≤ velocity_step v r ∧
    ((r - 1/2) / 2 ≤ 0 →
      velocity_step v r = ⌊((vDecay v : ℤ) : ℚ) * (1 - (r - 1/2) / 2)⌋) := by
  have hq0 : (0:ℤ) ≤ vDecay v := vDecay_nonneg h0
  have hq97 : vDecay v ≤ 97 := vDecay_le97 h1
  have hq0' : (0:ℚ) ≤ ((vDecay v : ℤ) : ℚ) := by exact_mod_cast hq0
  have hq97' : ((vDecay v : ℤ) : ℚ) ≤ 97 := by exact_mod_cast hq97
  simp only [velocity_step]
  constructor
  · split
    · apply Int.le_floor.mpr
      nlinarith [mul_nonneg (le_of_lt (by assumption : (0:ℚ) < (r - 1/2)/2))
        (show (0:ℚ) ≤ 127 - ((vDecay v : ℤ) : ℚ) by linarith)]
    · apply Int.le_floor.mpr
      have hst : (r - 1/2)/2 ≤ 0 := by linarith [not_lt.mp (by assumption : ¬ (0:ℚ) < (r - 1/2)/2)]
      nlinarith [mul_nonpos_of_nonpos_of_nonneg hst hq0']
  · intro hst
    rw [if_neg (not_lt.mpr hst)]
    congr 1
    ring

/-- Witness for C5 (amended) at velocity 64 and drawn value 1/4. -/
theorem C5_witness :
    vDecay 64 ≤ velocity_step 64 (1/4) ∧
    (((1:ℚ)/4 - 1/2) / 2 ≤ 0 →
      velocity_step 64 (1/4) = ⌊((vDecay 64 : ℤ) : ℚ) * (1 - ((1:ℚ)/4 - 1/2) / 2)⌋) :=
  C5_amended_jitter_up 64 (1/4) (by norm_num) (by norm_num) (by norm_num)
    (by norm_num)

/-- C1 counterexample: on the end-to-end scenario input the two notes carry
velocities 114 and 87, not 64 and 49, and the track bytes start
`00 90 34 72`, not `00 90 34 40`: the leading empty token produced by the
`'\'`-split triggers the recovery branch before the first note. -/
theorem C1_counterexample :
    ((processDocument rngZero BeamState.init c1content).2.map (fun e =>
      e.map (fun r => r.notes.map Note.dynamics))) =
        some (Except.ok [114, 87]) ∧
    ([(114:ℤ), 87] ≠ [64, 49]) ∧
    ((processDocument rngZero BeamState.init c1content).2.map (fun e =>
      e.map (fun r => (r.bytes.drop 22).take 8))) =
        some (Except.ok [0, 144, 52, 114, 32, 128, 52, 114]) := by
  refine ⟨by decide, by decide, by decide⟩

/-- C1 (amended): the scenario emits exactly two notes — pitch offset 0
(letter `e`, unmodified by the signature sharp on `m`) at tick 0, duration
32, velocity 114, and pitch offset 2 (letter `g`) at tick 32, duration 32,
velocity `floor(114/1.3) = 87` — and the written file is the 18-byte header,
the 4-byte length 16, and the track bytes
`00 90 34 72 20 80 34 72 00 90 37 57 20 80 37 57`. -/
theorem C1_amended_end_to_end :
    processDocument rngZero BeamState.init c1content =
      (BeamState.init,
       some (Except.ok
         ⟨[⟨⟨['e']⟩, 0, 32, [⟨['m']⟩], [], 1, 114⟩,
           ⟨⟨['g']⟩, 32, 32, [⟨['m']⟩], [], 1, 87⟩],
          [[], []],
          [77, 84, 104, 100, 0, 0, 0, 6, 0, 1, 0, 1, 0, 64, 77, 84, 114, 107,
           0, 0, 0, 16,
           0, 144, 52, 114, 32, 128, 52, 114,
           0, 144, 55, 87, 32, 128, 55, 87]⟩)) := by
  decide

/-- C2 counterexample: the same document (same name, same content) produces
a 32-tick note when processed alone but a 16-tick note when processed after
a document that declared a 16-tick beam duration: the `BeamNote` class maps
persist across documents, so the output is not a pure function of
(document content, document name). -/
theorem C2_counterexample :
    (runBatch rngOfZero [("a.tex".toList, docA), ("b.tex".toList, docB)]
      BeamState.init).1.length = 2 ∧
    ((runBatch rngOfZero [("a.tex".toList, docA), ("b.tex".toList, docB)]
      BeamState.init).1.getLast?).map Prod.snd ≠
    ((runBatch rngOfZero [("b.tex".toList, docB)]
      BeamState.init).1.getLast?).map Prod.snd := by
  refine ⟨by decide, by decide⟩

/-- C4 counterexample: a batch whose first document lacks the meter
directive aborts the whole run with an uncaught error: the second,
well-formed document — which converts fine on its own — produces no output
file. -/
theorem C4_counterexample :
    (runBatch rngOfZero [("x.tex".toList, docNoMeter), ("b.tex".toList, docB)]
      BeamState.init).1 = [] ∧
    (runBatch rngOfZero [("x.tex".toList, docNoMeter), ("b.tex".toList, docB)]
      BeamState.init).2.1 = some noMeterErr ∧
    (runBatch rngOfZero [("b.tex".toList, docB)] BeamState.init).1.length = 1 := by
  refine ⟨by decide, by decide, by decide⟩

/-- C10 counterexample: in a document whose body starts with the escape
character, the first token is empty and velocity becomes 114 — but when a
further recovery-applying token (here `\notes`) precedes the first
duration-bearing command, that first note carries velocity 124, not 114:
the claim's universal consequence fails. -/
theorem C10_counterexample :
    ((processDocument rngZero BeamState.init docNotesFirst).2.map (fun e =>
      e.map (fun r => r.notes.map Note.dynamics))) = some (Except.ok [124]) ∧
    ((124:ℤ) ≠ 114) := by
  refine ⟨by decide, by decide⟩

/-- C4 (amended): a midifyable document with no meter directive raises an
uncaught error that aborts the whole batch: no output is produced for it or
for any document after it. -/
theorem C4_amended_run_abort (rngOf : Chars → ℕ → ℚ) (n content : Chars)
    (rest : List (Chars × Chars)) (b : BeamState)
    (hmid : containsChars midifyableLit content = true)
    (hmeter : meterSearch (preprocess content) = none) :
    runBatch rngOf ((n, content) :: rest) b = ([], some noMeterErr, b) := by
  unfold runBatch processDocument
  rw [if_pos hmid]
  simp only [hmeter]

/-- Witness for C4 (amended): the concrete meterless document aborts a batch
with a well-formed document after it. -/
theorem C4_witness :
    runBatch rngOfZero [("x.tex".toList, docNoMeter), ("b.tex".toList, docB)]
      BeamState.init = ([], some noMeterErr, BeamState.init) :=
  C4_amended_run_abort rngOfZero ("x.tex".toList) docNoMeter
    [("b.tex".toList, docB)] BeamState.init (by decide) (by decide)

theorem runBatch_cons (rngOf : Chars → ℕ → ℚ) (name content : Chars)
    (rest : List (Chars × Chars)) (b : BeamState) :
    runBatch rngOf ((name, content) :: rest) b =
      match processDocument (rngOf name) b content with
      | (b', none) => runBatch rngOf rest b'
      | (b', some (Except.ok res)) =>
        ((name ++ ".mid".toList, res.bytes) :: (runBatch rngOf rest b').1,
         (runBatch rngOf rest b').2.1, (runBatch rngOf rest b').2.2)
      | (_, some (Except.error e)) => ([], some e, b) := rfl

theorem runBatch_append (rngOf : Chars → ℕ → ℚ) (l1 l2 : List (Chars × Chars))
    (b : BeamState) (h : (runBatch rngOf l1 b).2.1 = none) :
    runBatch rngOf (l1 ++ l2) b =
      ((runBatch rngOf l1 b).1 ++
        (runBatch rngOf l2 (runBatch rngOf l1 b).2.2).1,
       (runBatch rngOf l2 (runBatch rngOf l1 b).2.2).2) := by
  induction l1 generalizing b with
  | nil => simp [runBatch]
  | cons d rest ih =>
    obtain ⟨name, content⟩ := d
    rcases hpd : processDocument (rngOf name) b content with ⟨b', res⟩
    rcases res with _ | res
    · have hc1 : runBatch rngOf (((name, content) :: rest) ++ l2) b =
          runBatch rngOf (rest ++ l2) b' := by
        rw [List.cons_append, runBatch_cons, hpd]
      have hc2 : runBatch rngOf ((name, content) :: rest) b =
          runBatch rngOf rest b' := by rw [runBatch_cons, hpd]
      rw [hc2] at h ⊢
      rw [hc1]
      exact ih b' h
    · rcases res with e | r
      · exfalso
        have hc2 : runBatch rngOf ((name, content) :: rest) b =
            ([], some e, b) := by rw [runBatch_cons, hpd]
        rw [hc2] at h
        simp at h
      · have hc1 : runBatch rngOf (((name, content) :: rest) ++ l2) b =
            ((name ++ ".mid".toList, r.bytes) ::
              (runBatch rngOf (rest ++ l2) b').1,
             (runBatch rngOf (rest ++ l2) b').2.1,
             (runBatch rngOf (rest ++ l2) b').2.2) := by
          rw [List.cons_append, runBatch_cons, hpd]
        have hc2 : runBatch rngOf ((name, content) :: rest) b =
            ((name ++ ".mid".toList, r.bytes) :: (runBatch rngOf rest b').1,
             (runBatch rngOf rest b').2.1, (runBatch rngOf rest b').2.2) := by
          rw [runBatch_cons, hpd]
        have h' : (runBatch rngOf rest b').2.1 = none := by
          rw [hc2] at h
          exact h
        rw [hc1, hc2, ih b' h']
        simp

/-- C2 (amended): a document's output is a pure function of its content, its
name (through the seeded random stream) and the incoming beam-duration
state: two error-free batch prefixes that leave the `BeamNote` class state
equal give the appended document identical output. -/
theorem C2_amended_beam_purity (rngOf : Chars → ℕ → ℚ)
    (pre1 pre2 : List (Chars × Chars)) (d : Chars × Chars) (b0 : BeamState)
    (h1 : (runBatch rngOf pre1 b0).2.1 = none)
    (h2 : (runBatch rngOf pre2 b0).2.1 = none)
    (hb : (runBatch rngOf pre1 b0).2.2 = (runBatch rngOf pre2 b0).2.2) :
    (runBatch rngOf (pre1 ++ [d]) b0).1.drop (runBatch rngOf pre1 b0).1.length =
    (runBatch rngOf (pre2 ++ [d]) b0).1.drop (runBatch rngOf pre2 b0).1.length := by
  rw [runBatch_append rngOf pre1 [d] b0 h1, runBatch_append rngOf pre2 [d] b0 h2]
  simp only [List.drop_left]
  rw [hb]

/-- Witness for C2 (amended): the empty prefix and a skipped (non-midifyable)
document leave the beam state equal, so the appended document's output slice
agrees. -/
theorem C2_witness :
    (runBatch rngOfZero ([] ++ [("b.tex".toList, docB)]) BeamState.init).1.drop
      (runBatch rngOfZero [] BeamState.init).1.length =
    (runBatch rngOfZero ([("p.tex".toList, docPlain)] ++ [("b.tex".toList, docB)])
      BeamState.init).1.drop
      (runBatch rngOfZero [("p.tex".toList, docPlain)] BeamState.init).1.length :=
  C2_amended_beam_purity rngOfZero [] [("p.tex".toList, docPlain)]
    ("b.tex".toList, docB) BeamState.init (by decide) (by decide) (by decide)

theorem mkNote_dynBounds (p : Pitch) (start dur : ℤ) (sharps flats : List Pitch)
    (natRef : ℕ) (dyn : ℤ) :
    dynBounds (mkNote p start dur sharps flats natRef dyn) := by
  simp only [dynBounds, mkNote]
  omega

theorem emitSimple_ok {g : GlobalAcc} {s : DocState} {args : List Chars}
    {d : ℤ} {s' : DocState} (h : emitSimple g s args d = Except.ok s') :
    (∃ new, s'.notes = s.notes ++ new ∧ ∀ n ∈ new, dynBounds n) ∧
    s'.velocity = vDecay s.velocity := by
  unfold emitSimple at h
  repeat' split at h
  all_goals first
    | exact Except.noConfusion h
    | (cases h
       refine ⟨⟨_, rfl, ?_⟩, rfl⟩
       simp only [List.mem_singleton]
       rintro n rfl
       apply mkNote_dynBounds)

theorem emitDqb_ok {g : GlobalAcc} {s : DocState} {args : List Chars}
    {s' : DocState} (h : emitDqb g s args = Except.ok s') :
    (∃ new, s'.notes = s.notes ++ new ∧ ∀ n ∈ new, dynBounds n) ∧
    s'.velocity = vDecay (vDecay s.velocity) := by
  unfold emitDqb at h
  repeat' split at h
  all_goals first
    | exact Except.noConfusion h
    | (cases h
       refine ⟨⟨_, rfl, ?_⟩, rfl⟩
       intro n hn
       simp only [List.mem_cons, List.mem_singleton, List.not_mem_nil,
         or_false] at hn
       rcases hn with rfl | rfl <;> apply mkNote_dynBounds)

theorem emitTqb_ok {g : GlobalAcc} {s : DocState} {args : List Chars}
    {s' : DocState} (h : emitTqb g s args = Except.ok s') :
    (∃ new, s'.notes = s.notes ++ new ∧ ∀ n ∈ new, dynBounds n) ∧
    s'.velocity = vDecay (vDecay (vDecay s.velocity)) := by
  unfold emitTqb at h
  repeat' split at h
  all_goals first
    | exact Except.noConfusion h
    | (cases h
       refine ⟨⟨_, rfl, ?_⟩, rfl⟩
       intro n hn
       simp only [List.mem_cons, List.mem_singleton, List.not_mem_nil,
         or_false] at hn
       rcases hn with rfl | rfl | rfl <;> apply mkNote_dynBounds)

theorem emitQqb_ok {g : GlobalAcc} {s : DocState} {args : List Chars}
    {s' : DocState} (h : emitQqb g s args = Except.ok s') :
    (∃ new, s'.notes = s.notes ++ new ∧ ∀ n ∈ new, dynBounds n) ∧
    s'.velocity = s.velocity := by
  unfold emitQqb at h
  repeat' split at h
  all_goals first
    | exact Except.noConfusion h
    | (cases h
       refine ⟨⟨_, rfl, ?_⟩, rfl⟩
       intro n hn
       simp only [List.mem_cons, List.mem_singleton, List.not_mem_nil,
         or_false] at hn
       rcases hn with rfl | rfl | rfl | rfl <;> apply mkNote_dynBounds)

theorem emitDqbb_ok {g : GlobalAcc} {s : DocState} {args : List Chars}
    {s' : DocState} (h : emitDqbb g s args = Except.ok s') :
    (∃ new, s'.notes = s.notes ++ new ∧ ∀ n ∈ new, dynBounds n) ∧
    s'.velocity = s.velocity := by
  unfold emitDqbb at h
  repeat' split at h
  all_goals first
    | exact Except.noConfusion h
    | (cases h
       refine ⟨⟨_, rfl, ?_⟩, rfl⟩
       intro n hn
       simp only [List.mem_cons, List.mem_singleton, List.not_mem_nil,
         or_false] at hn
       rcases hn with rfl | rfl <;> apply mkNote_dynBounds)

theorem emitTqbb_ok {g : GlobalAcc} {s : DocState} {args : List Chars}
    {s' : DocState} (h : emitTqbb g s args = Except.ok s') :
    (∃ new, s'.notes = s.notes ++ new ∧ ∀ n ∈ new, dynBounds n) ∧
    s'.velocity = s.velocity := by
  unfold emitTqbb at h
  repeat' split at h
  all_goals first
    | exact Except.noConfusion h
    | (cases h
       refine ⟨⟨_, rfl, ?_⟩, rfl⟩
       intro n hn
       simp only [List.mem_cons, List.mem_singleton, List.not_mem_nil,
         or_false] at hn
       rcases hn with rfl | rfl | rfl <;> apply mkNote_dynBounds)

theorem emitQqbb_ok {g : GlobalAcc} {s : DocState} {args : List Chars}
    {s' : DocState} (h : emitQqbb g s args = Except.ok s') :
    (∃ new, s'.notes = s.notes ++ new ∧ ∀ n ∈ new, dynBounds n) ∧
    s'.velocity = s.velocity := by
  unfold emitQqbb at h
  repeat' split at h
  all_goals first
    | exact Except.noConfusion h
    | (cases h
       refine ⟨⟨_, rfl, ?_⟩, rfl⟩
       intro n hn
       simp only [List.mem_cons, List.mem_singleton, List.not_mem_nil,
         or_false] at hn
       rcases hn with rfl | rfl | rfl | rfl <;> apply mkNote_dynBounds)

theorem emitQb_ok {rng : ℕ → ℚ} {g : GlobalAcc} {s : DocState}
    {args : List Chars} {s' : DocState} (h : emitQb rng g s args = Except.ok s') :
    (∃ new, s'.notes = s.notes ++ new ∧ ∀ n ∈ new, dynBounds n) ∧
    s'.velocity = velocity_step s.velocity (rng s.rngIdx) := by
  unfold emitQb at h
  repeat' split at h
  all_goals first
    | exact Except.noConfusion h
    | (cases h
       refine ⟨⟨_, rfl, ?_⟩, rfl⟩
       simp only [List.mem_singleton]
       rintro n rfl
       apply mkNote_dynBounds)

theorem emitQbp_ok {rng : ℕ → ℚ} {g : GlobalAcc} {s : DocState}
    {args : List Chars} {s' : DocState} (h : emitQbp rng g s args = Except.ok s') :
    (∃ new, s'.notes = s.notes ++ new ∧ ∀ n ∈ new, dynBounds n) ∧
    s'.velocity = velocity_step s.velocity (rng s.rngIdx) := by
  unfold emitQbp at h
  repeat' split at h
  all_goals first
    | exact Except.noConfusion h
    | (cases h
       refine ⟨⟨_, rfl, ?_⟩, rfl⟩
       simp only [List.mem_singleton]
       rintro n rfl
       apply mkNote_dynBounds)

theorem stepCmdRest_ok {rng : ℕ → ℚ} {g : GlobalAcc} {s : DocState}
    {cmd : Chars} {args : List Chars} {s' : DocState}
    (h : stepCmdRest rng g s cmd args = Except.ok s') :
    (∃ new, s'.notes = s.notes ++ new ∧ ∀ n ∈ new, dynBounds n) ∧
    ((∀ i, 0 ≤ rng i ∧ rng i < 1) → velOK s → velOK s') := by
  unfold stepCmdRest at h
  repeat' split at h
  · rcases emitQb_ok h with ⟨hnotes, hvel⟩
    refine ⟨hnotes, fun hr hv => ?_⟩
    simp only [velOK] at hv ⊢
    rw [hvel]
    exact velocity_step_mem hv.1 hv.2 (hr _).1 (hr _).2
  · rcases emitQbp_ok h with ⟨hnotes, hvel⟩
    refine ⟨hnotes, fun hr hv => ?_⟩
    simp only [velOK] at hv ⊢
    rw [hvel]
    exact velocity_step_mem hv.1 hv.2 (hr _).1 (hr _).2
  · cases h
    exact ⟨⟨[], by simp, by simp⟩, fun hr hv => hv⟩
  · cases h
    exact ⟨⟨[], by simp, by simp⟩, fun hr hv => hv⟩
  · cases h
    exact ⟨⟨[], by simp, by simp⟩, fun hr hv => hv⟩
  · cases h
    exact ⟨⟨[], by simp, by simp⟩, fun hr hv => hv⟩
  · cases h
    exact ⟨⟨[], by simp, by simp⟩, fun hr hv => hv⟩

theorem stepCmdBeam_ok {rng : ℕ → ℚ} {g : GlobalAcc} {s : DocState}
    {cmd : Chars} {args : List Chars} {s' : DocState}
    (h : stepCmdBeam rng g s cmd args = Except.ok s') :
    (∃ new, s'.notes = s.notes ++ new ∧ ∀ n ∈ new, dynBounds n) ∧
    ((∀ i, 0 ≤ rng i ∧ rng i < 1) → velOK s → velOK s') := by
  unfold stepCmdBeam at h
  repeat' split at h
  all_goals try exact Except.noConfusion h
  · cases h
    exact ⟨⟨[], by simp, by simp⟩, fun hr hv => hv⟩
  · cases h
    exact ⟨⟨[], by simp, by simp⟩, fun hr hv => hv⟩
  · cases h
    refine ⟨⟨[], by simp, by simp⟩, fun hr hv => ?_⟩
    simp only [velOK] at hv ⊢
    exact vRecover_mem hv.1 hv.2
  · cases h
    exact ⟨⟨[], by simp, by simp⟩, fun hr hv => hv⟩
  · exact stepCmdRest_ok h

theorem stepCmdChord_ok {rng : ℕ → ℚ} {g : GlobalAcc} {s : DocState}
    {cmd : Chars} {args : List Chars} {s' : DocState}
    (h : stepCmdChord rng g s cmd args = Except.ok s') :
    (∃ new, s'.notes = s.notes ++ new ∧ ∀ n ∈ new, dynBounds n) ∧
    ((∀ i, 0 ≤ rng i ∧ rng i < 1) → velOK s → velOK s') := by
  unfold stepCmdChord at h
  repeat' split at h
  · rcases emitDqb_ok h with ⟨hnotes, hvel⟩
    refine ⟨hnotes, fun hr hv => ?_⟩
    simp only [velOK] at hv ⊢
    rw [hvel]
    have h1 := vDecay_mem hv.1 hv.2
    exact vDecay_mem h1.1 h1.2
  · rcases emitTqb_ok h with ⟨hnotes, hvel⟩
    refine ⟨hnotes, fun hr hv => ?_⟩
    simp only [velOK] at hv ⊢
    rw [hvel]
    have h1 := vDecay_mem hv.1 hv.2
    have h2 := vDecay_mem h1.1 h1.2
    exact vDecay_mem h2.1 h2.2
  · rcases emitQqb_ok h with ⟨hnotes, hvel⟩
    refine ⟨hnotes, fun hr hv => ?_⟩
    simp only [velOK] at hv ⊢
    rw [hvel]
    exact hv
  · rcases emitDqbb_ok h with ⟨hnotes, hvel⟩
    refine ⟨hnotes, fun hr hv => ?_⟩
    simp only [velOK] at hv ⊢
    rw [hvel]
    exact hv
  · rcases emitTqbb_ok h with ⟨hnotes, hvel⟩
    refine ⟨hnotes, fun hr hv => ?_⟩
    simp only [velOK] at hv ⊢
    rw [hvel]
    exact hv
  · rcases emitQqbb_ok h with ⟨hnotes, hvel⟩
    refine ⟨hnotes, fun hr hv => ?_⟩
    simp only [velOK] at hv ⊢
    rw [hvel]
    exact hv
  · exact stepCmdBeam_ok h

theorem stepCmdAcc_ok {rng : ℕ → ℚ} {g : GlobalAcc} {s : DocState}
    {cmd : Chars} {args : List Chars} {s' : DocState}
    (h : stepCmdAcc rng g s cmd args = Except.ok s') :
    (∃ new, s'.notes = s.notes ++ new ∧ ∀ n ∈ new, dynBounds n) ∧
    ((∀ i, 0 ≤ rng i ∧ rng i < 1) → velOK s → velOK s') := by
  unfold stepCmdAcc at h
  repeat' split at h
  all_goals try exact Except.noConfusion h
  · cases h
    exact ⟨⟨[], by simp, by simp⟩, fun hr hv => hv⟩
  · cases h
    exact ⟨⟨[], by simp, by simp⟩, fun hr hv => hv⟩
  · cases h
    exact ⟨⟨[], by simp, by simp⟩, fun hr hv => hv⟩
  · exact stepCmdChord_ok h

theorem stepCmd_ok {rng : ℕ → ℚ} {g : GlobalAcc} {s : DocState} {cmd : Chars}
    {args : List Chars} {s' : DocState}
    (h : stepCmd rng g s cmd args = Except.ok s') :
    (∃ new, s'.notes = s.notes ++ new ∧ ∀ n ∈ new, dynBounds n) ∧
    ((∀ i, 0 ≤ rng i ∧ rng i < 1) → velOK s → velOK s') := by
  unfold stepCmd at h
  repeat' split at h
  · rcases emitSimple_ok h with ⟨hnotes, hvel⟩
    refine ⟨hnotes, fun hr hv => ?_⟩
    simp only [velOK] at hv ⊢
    rw [hvel]
    exact vDecay_mem hv.1 hv.2
  · exact stepCmdAcc_ok h

theorem step_ok {rng : ℕ → ℚ} {g : GlobalAcc} {s : DocState} {e : Chars}
    {s' : DocState} (h : step rng g s e = Except.ok s') :
    (∃ new, s'.notes = s.notes ++ new ∧ ∀ n ∈ new, dynBounds n) ∧
    ((∀ i, 0 ≤ rng i ∧ rng i < 1) → velOK s → velOK s') := by
  unfold step at h
  repeat' split at h
  all_goals try exact Except.noConfusion h
  · cases h
    refine ⟨⟨[], by simp, by simp⟩, fun hr hv => ?_⟩
    simp only [velOK] at hv ⊢
    exact vRecover_mem hv.1 hv.2
  · cases h
    exact ⟨⟨[], by simp, by simp⟩, fun hr hv => hv⟩
  · exact stepCmd_ok h

theorem interpret_ok {rng : ℕ → ℚ} {g : GlobalAcc} (tokens : List Chars) :
    ∀ s s', interpret rng g tokens s = Except.ok s' →
      (∃ new, s'.notes = s.notes ++ new ∧ ∀ n ∈ new, dynBounds n) ∧
      ((∀ i, 0 ≤ rng i ∧ rng i < 1) → velOK s → velOK s') := by
  induction tokens with
  | nil =>
    intro s s' h
    cases h
    exact ⟨⟨[], by simp, by simp⟩, fun _ hv => hv⟩
  | cons t ts ih =>
    intro s s' h
    unfold interpret at h
    rcases hstep : step rng g s t with e | s1
    · rw [hstep] at h
      exact Except.noConfusion h
    · rw [hstep] at h
      rcases step_ok hstep with ⟨⟨new1, hn1, hb1⟩, hv1⟩
      rcases ih s1 s' h with ⟨⟨new2, hn2, hb2⟩, hv2⟩
      refine ⟨⟨new1 ++ new2, ?_, ?_⟩, fun hr hv => hv2 hr (hv1 hr hv)⟩
      · rw [hn2, hn1, List.append_assoc]
      · intro n hn
        rcases List.mem_append.mp hn with h' | h'
        · exact hb1 n h'
        · exact hb2 n h'

/-- C7: starting from the per-document initial velocity 64, any finite
command sequence — with its interleaving of decay, recovery and jitter steps
— keeps the running velocity in `[0, 127]`, and every emitted Note's
velocity lies in `[0, 127]` (the constructor clamps), for every random
stream with values in `[0, 1)`. -/
theorem C7_velocity_bounds (rng : ℕ → ℚ) (g : GlobalAcc) (tokens : List Chars)
    (b : BeamState) (hr : ∀ i, 0 ≤ rng i ∧ rng i < 1) :
    match interpret rng g tokens (initDoc b) with
    | Except.ok s' => velOK s' ∧ ∀ n ∈ s'.notes, dynBounds n
    | Except.error _ => True := by
  rcases hres : interpret rng g tokens (initDoc b) with e | s'
  · trivial
  · rcases interpret_ok tokens (initDoc b) s' hres with ⟨⟨new, hn, hb⟩, hv⟩
    constructor
    · exact hv hr ⟨by norm_num [initDoc], by norm_num [initDoc]⟩
    · intro n hn'
      rw [hn] at hn'
      rcases List.mem_append.mp hn' with h' | h'
      · exact absurd h' (by simp [initDoc])
      · exact hb n h'

/-- Witness for C7 on a concrete one-note token list and the zero random
stream. -/
theorem C7_witness :
    match interpret rngZero ⟨[], []⟩ ["cl\x7b0\x7d".toList]
        (initDoc BeamState.init) with
    | Except.ok s' => velOK s' ∧ ∀ n ∈ s'.notes, dynBounds n
    | Except.error _ => True :=
  C7_velocity_bounds rngZero ⟨[], []⟩ ["cl\x7b0\x7d".toList] BeamState.init
    (fun _ => ⟨by norm_num [rngZero], by norm_num [rngZero]⟩)

/-- C3 counterexample: with a one-sharp signature (sharp letter `m`), the
note of `\cl{8}` (letter `m`) resolves to 66 right after its creation, but
after a subsequent `\na{8}` it resolves to 65 — although the Note value
itself (all constructor fields) is unchanged: the `na` command mutated the
`explicitNaturals` list the Note's accidental snapshot aliases. -/
theorem C3_counterexample :
    firstPitchResolved ⟨SHARPS.take 1, []⟩ ["cl\x7b8\x7d".toList] =
      some (Except.ok 66) ∧
    firstPitchResolved ⟨SHARPS.take 1, []⟩
      ["cl\x7b8\x7d".toList, "na\x7b8\x7d".toList] = some (Except.ok 65) ∧
    firstNoteOf ⟨SHARPS.take 1, []⟩ ["cl\x7b8\x7d".toList] =
      firstNoteOf ⟨SHARPS.take 1, []⟩
        ["cl\x7b8\x7d".toList, "na\x7b8\x7d".toList] ∧
    (firstNoteOf ⟨SHARPS.take 1, []⟩ ["cl\x7b8\x7d".toList]).isSome = true := by
  refine ⟨by decide, by decide, by decide, by decide⟩

/-- C3 (amended): a `sh` or `fl` command never changes the store of naturals
lists nor the note list, so the resolved MIDI pitch of every already-created
Note is unchanged by it (the merged sharps/flats were snapshotted into the
Note at creation; only `na` writes through the aliased naturals list). -/
theorem C3_amended_sh_fl_frame (rng : ℕ → ℚ) (g : GlobalAcc) (s : DocState)
    (elem : Chars) (s' : DocState)
    (hnb1 : toLowerL elem ∉ L1) (hnb2 : toLowerL elem ∉ L2)
    (hcmd : firstAlphaRunL elem = some "sh".toList ∨
            firstAlphaRunL elem = some "fl".toList)
    (h : step rng g s elem = Except.ok s') :
    s'.store = s.store ∧ s'.notes = s.notes ∧
    ∀ n ∈ s.notes, n.toMidiPitch s'.store = n.toMidiPitch s.store := by
  unfold step at h
  rw [if_neg hnb1, if_neg hnb2] at h
  rcases hcmd with hc | hc
  · rw [hc] at h
    dsimp only at h
    unfold stepCmd at h
    rw [show simpleDur ("sh".toList) = none from rfl] at h
    dsimp only at h
    unfold stepCmdAcc at h
    rw [if_pos rfl] at h
    split at h
    · exact Except.noConfusion h
    · split at h
      · exact Except.noConfusion h
      · cases h
        exact ⟨rfl, rfl, fun n _ => rfl⟩
  · rw [hc] at h
    dsimp only at h
    unfold stepCmd at h
    rw [show simpleDur ("fl".toList) = none from rfl] at h
    dsimp only at h
    unfold stepCmdAcc at h
    rw [if_neg (by decide), if_pos rfl] at h
    split at h
    · exact Except.noConfusion h
    · split at h
      · exact Except.noConfusion h
      · cases h
        exact ⟨rfl, rfl, fun n _ => rfl⟩

/-- Witness for C3 (amended) on the concrete element `sh{e}` from the
initial state. -/
theorem C3_witness :
    ({ initDoc BeamState.init with
        localSharps := [Pitch.fromLetter ['e']] } : DocState).store =
      (initDoc BeamState.init).store ∧
    ({ initDoc BeamState.init with
        localSharps := [Pitch.fromLetter ['e']] } : DocState).notes =
      (initDoc BeamState.init).notes ∧
    ∀ n ∈ (initDoc BeamState.init).notes,
      n.toMidiPitch ({ initDoc BeamState.init with
        localSharps := [Pitch.fromLetter ['e']] } : DocState).store =
      n.toMidiPitch (initDoc BeamState.init).store :=
  C3_amended_sh_fl_frame rngZero ⟨[], []⟩ (initDoc BeamState.init)
    ("sh\x7be\x7d".toList)
    { initDoc BeamState.init with localSharps := [Pitch.fromLetter ['e']] }
    (by decide) (by decide) (Or.inl (by decide)) (by decide)

/-- C10 (amended): when the music body after `\startpiece` begins with the
escape character, the first token of the split is the empty string; the
boundary branch then runs before any note command, resetting the local
scope (fresh naturals generation) and replacing velocity 64 by
`floor(64 + 0.8*(127-64)) = 114`; consequently, when the next token is a
`cl` note command and no further recovery-applying token intervenes, the
first emitted Note carries velocity 114 rather than 64. -/
theorem C10_amended_thm (rng : ℕ → ℚ) (g : GlobalAcc) (b : BeamState)
    (tok : Chars) (rest : List Chars) (a0 : Chars) (p : Pitch)
    (hnb1 : toLowerL tok ∉ L1) (hnb2 : toLowerL tok ∉ L2)
    (hcl : firstAlphaRunL tok = some "cl".toList)
    (ha : argAt (parseArgs (tok.drop 2)) 0 = Except.ok a0)
    (hap : auto_pitch a0 = Except.ok p) :
    (∀ cs : Chars, splitOnChar bsC (bsC :: cs) = [] :: splitOnChar bsC cs) ∧
    step rng g (initDoc b) [] =
      Except.ok { initDoc b with store := [[], []], curGen := 1,
                                 velocity := 114 } ∧
    (match interpret rng g ([] :: tok :: rest) (initDoc b) with
     | Except.ok s' =>
        s'.notes.head? = some (mkNote p 0 32 g.sharps g.flats 1 114)
     | Except.error _ => True) := by
  have hsplit : ∀ cs : Chars,
      splitOnChar bsC (bsC :: cs) = [] :: splitOnChar bsC cs := by
    intro cs
    simp [splitOnChar]
  have hb : step rng g (initDoc b) [] =
      Except.ok { initDoc b with store := [[], []], curGen := 1,
                                 velocity := 114 } := by
    unfold step
    rw [if_pos (show toLowerL [] ∈ L1 by decide)]
    rfl
  refine ⟨hsplit, hb, ?_⟩
  rcases hres : interpret rng g ([] :: tok :: rest) (initDoc b) with e | sfin
  · trivial
  · unfold interpret at hres
    rw [hb] at hres
    replace hres : interpret rng g (tok :: rest)
        ({ initDoc b with store := [[], []], curGen := 1,
                          velocity := 114 } : DocState) =
        Except.ok sfin := hres
    unfold interpret at hres
    have hstep2 : step rng g
        ({ initDoc b with store := [[], []], curGen := 1,
                          velocity := 114 } : DocState) tok =
        Except.ok ({ initDoc b with
          notes := [mkNote p 0 32 (g.sharps ++ []) (g.flats ++ []) 1 114],
          deltatime := 0 + 32, store := [[], []], curGen := 1,
          velocity := vDecay 114 } : DocState) := by
      unfold step
      rw [if_neg hnb1, if_neg hnb2, hcl]
      dsimp only
      unfold stepCmd
      rw [show simpleDur ("cl".toList) = some 32 from rfl]
      dsimp only
      unfold emitSimple
      rw [show argAt (parseArgs (tok.drop (("cl".toList).length))) 0 =
            Except.ok a0 from ha]
      dsimp only
      rw [hap]
      rfl
    rw [hstep2] at hres
    replace hres : interpret rng g rest
        ({ initDoc b with
          notes := [mkNote p 0 32 (g.sharps ++ []) (g.flats ++ []) 1 114],
          deltatime := 0 + 32, store := [[], []], curGen := 1,
          velocity := vDecay 114 } : DocState) = Except.ok sfin := hres
    obtain ⟨new, hnew, _⟩ := (interpret_ok rest _ sfin hres).1
    dsimp only
    rw [hnew]
    simp

/-- Witness for C10 (amended) with `tok = cl{0}` and an empty remainder. -/
theorem C10_witness :
    (∀ cs : Chars, splitOnChar bsC (bsC :: cs) = [] :: splitOnChar bsC cs) ∧
    step rngZero ⟨[], []⟩ (initDoc BeamState.init) [] =
      Except.ok { initDoc BeamState.init with store := [[], []], curGen := 1,
                                              velocity := 114 } ∧
    (match interpret rngZero ⟨[], []⟩ ([] :: "cl\x7b0\x7d".toList :: [])
        (initDoc BeamState.init) with
     | Except.ok s' =>
        s'.notes.head? = some (mkNote (Pitch.fromLetter ['e']) 0 32 [] [] 1 114)
     | Except.error _ => True) :=
  C10_amended_thm rngZero ⟨[], []⟩ BeamState.init ("cl\x7b0\x7d".toList) []
    (['0']) (Pitch.fromLetter ['e'])
    (by decide) (by decide) (by decide) (by decide) (by decide)
